import Mathlib

/-!
Verification of the sonobuoy worker done-file watcher
(`pkg/worker/worker.go`): `GatherResults`, `handleWaitFile` and
`sigHandler`, with the external transmission primitive `DoRequest`
modelled from its specified interface.

The embedding is a shallow one: the filesystem is an association list
from paths to file entries, the event loop of `GatherResults` is a
function consuming a list of delivered channel events, and every
filesystem operation the code performs is recorded in an operation
trace so that frame properties (the watcher never writes) are provable.
-/

namespace Worker

/-- A file visible to the watcher: either readable content, or a file
that exists but whose read/open fails (permission-style failure). -/
inductive FileEntry where
  | content (data : String)
  | unreadable
deriving DecidableEq, Repr

/-- The filesystem shared with the plugin container: paths mapped to
entries. Absent paths do not exist. -/
abbrev FS := List (String × FileEntry)

/-- Kinds of read/open failure, mirroring the error of `ioutil.ReadFile`
and `os.Open` (`*os.PathError`): the file does not exist, or it exists
but cannot be read. -/
inductive ReadErr where
  | notFound
  | permission
deriving DecidableEq, Repr

deriving instance DecidableEq for Except

/-- Embedding of `ioutil.ReadFile`: returns the content on success, an
error otherwise. -/
def readFileFS (fs : FS) (p : String) : Except ReadErr String :=
  match fs.lookup p with
  | some (FileEntry.content d) => Except.ok d
  | some FileEntry.unreadable => Except.error ReadErr.permission
  | none => Except.error ReadErr.notFound

/-- Embedding of `os.Open` (read-only open): succeeds exactly when the
file is readable; on failure the returned handle is nil. -/
def openFS (fs : FS) (p : String) : Except ReadErr Unit :=
  match fs.lookup p with
  | some (FileEntry.content _) => Except.ok ()
  | some FileEntry.unreadable => Except.error ReadErr.permission
  | none => Except.error ReadErr.notFound

/-- Go error values that flow through the watcher: the `*os.PathError`
produced by `os.Open`, the stack-trace wrapper added by
`errors.WithStack`, and a transmission failure reported by the
primitive. -/
inductive GoErr where
  | pathErr (op : String) (path : String) (kind : ReadErr)
  | withStack (e : GoErr)
  | httpErr
deriving DecidableEq, Repr

/-- Embedding of `errors.WithStack`: wraps a non-nil error with a stack
trace and maps nil to nil. -/
def withStackOpt : Option GoErr → Option GoErr
  | none => none
  | some e => some (GoErr.withStack e)

/-- Helper for `filepathExt`: walks the path characters in reverse,
accumulating the characters after the final dot; stops at a path
separator. -/
def extGo : List Char → List Char → String
  | [], _ => ""
  | c :: rest, acc =>
    if c = '/' then ""
    else if c = '.' then String.mk ('.' :: acc)
    else extGo rest (c :: acc)

/-- Embedding of `filepath.Ext`: the suffix beginning at the final dot
in the final slash-separated element of the path; empty if there is no
dot. -/
def filepathExt (path : String) : String :=
  extGo path.data.reverse []

/-- The extension-to-content-type mapping table consulted by
`mime.TypeByExtension`: the Go runtime's builtin table, extended by
the package `init` with `.gz -> application/gzip` via
`mime.AddExtensionType`. (System-installed mappings read from
`/etc/mime.types` are environment-dependent and not part of the
program; they are omitted.) -/
def mimeTable : List (String × String) :=
  [ (".gz", "application/gzip"),
    (".css", "text/css; charset=utf-8"),
    (".gif", "image/gif"),
    (".htm", "text/html; charset=utf-8"),
    (".html", "text/html; charset=utf-8"),
    (".jpg", "image/jpeg"),
    (".js", "application/x-javascript"),
    (".pdf", "application/pdf"),
    (".png", "image/png"),
    (".svg", "image/svg+xml"),
    (".xml", "text/xml; charset=utf-8") ]

/-- ASCII lowercasing of a string, character by character (the case
folding `mime.TypeByExtension` applies to extensions). -/
def strToLower (s : String) : String :=
  String.mk (s.data.map Char.toLower)

/-- Embedding of `mime.TypeByExtension` as used after the package
`init`: a table lookup, trying the extension as given and then
lowercased; an unrecognized extension yields the empty string and is
never an error. -/
def typeByExtension (ext : String) : String :=
  match mimeTable.lookup ext with
  | some t => t
  | none =>
    match mimeTable.lookup (strToLower ext) with
    | some t => t
    | none => ""

/-- Filesystem operations a process can perform. The watcher only ever
performs the first three; the mutating ones are included so that the
frame property "the watcher never creates, writes or deletes" is a
statement about traces, not about an impoverished type. -/
inductive FsOp where
  | readFile (p : String)
  | openRead (p : String)
  | closeHandle (p : String)
  | create (p : String)
  | write (p : String) (data : String)
  | remove (p : String)
deriving DecidableEq, Repr

/-- Whether a filesystem operation can change filesystem state. -/
def mutatesB : FsOp → Bool
  | FsOp.create _ => true
  | FsOp.write _ _ => true
  | FsOp.remove _ => true
  | _ => false

/-- The effect of one filesystem operation on the filesystem. -/
def applyFsOp (fs : FS) : FsOp → FS
  | FsOp.create p => (p, FileEntry.content "") :: fs
  | FsOp.write p d => (p, FileEntry.content d) :: fs
  | FsOp.remove p => fs.filter (fun e => !(e.fst = p : Bool))
  | _ => fs

/-- What the stream factory passed to `DoRequest` produced when
invoked: whether a non-nil reader was returned, the content type, and
the (possibly nil) error. -/
structure FactoryOut where
  readerPresent : Bool
  ctype : String
  err : Option GoErr
deriving DecidableEq, Repr

/-- Modelled from the spec: the HTTP transmission primitive `DoRequest`
(declared outside this file) is given a destination URL, an HTTP
client, and a factory that lazily produces a readable stream, content
type, and error; it performs the actual upload and reports
success/failure, and an artifact-open failure delivered through the
factory's error result is surfaced as the transmission's error. The
factory is invoked exactly once; its outcome is passed here already
evaluated. Upload success is an environment parameter `netOk`. -/
def DoRequest (netOk : Bool) (url : String) (f : FactoryOut) : Option GoErr :=
  match f.err with
  | some e => some e
  | none => if netOk then none else some GoErr.httpErr

/-- Environment external to the watcher: the shared filesystem and
whether an attempted upload succeeds. -/
structure Env where
  fs : FS
  netOk : Bool
deriving DecidableEq, Repr

/-- Observable trace of one `handleWaitFile` call. -/
structure HWTrace where
  doRequestCalls : Nat
  url : String
  contentType : String
  factory : FactoryOut
  opened : Nat
  closed : Nat
  fsOps : List FsOp
  ret : Option GoErr
deriving DecidableEq, Repr

/-- Embedding of `handleWaitFile`: resolves the content type from the
result path's extension, calls `DoRequest` with a factory that opens
the artifact read-only and returns the handle, the content type, and
the stack-wrapped open error; a deferred close releases the handle
exactly when it is non-nil. -/
def handleWaitFile (resultFile url : String) (env : Env) : HWTrace :=
  let mimeType := typeByExtension (filepathExt resultFile)
  let openRes := openFS env.fs resultFile
  let factory : FactoryOut :=
    match openRes with
    | Except.ok _ =>
      { readerPresent := true, ctype := mimeType, err := withStackOpt none }
    | Except.error k =>
      { readerPresent := false, ctype := mimeType,
        err := withStackOpt (some (GoErr.pathErr "open" resultFile k)) }
  let ret := DoRequest env.netOk url factory
  let openedN : Nat := match openRes with | Except.ok _ => 1 | Except.error _ => 0
  { doRequestCalls := 1
    url := url
    contentType := mimeType
    factory := factory
    opened := openedN
    closed := openedN
    fsOps := FsOp.openRead resultFile ::
      (match openRes with
       | Except.ok _ => [FsOp.closeHandle resultFile]
       | Except.error _ => [])
    ret := ret }

/-- Events the `select` loop of `GatherResults` can receive: a tick of
the 1-second poll ticker, a value on the channel returned by
`sigHandler`, and a value on the internal `stop` channel (grace-period
expiry, sent by the goroutine spawned in the signal branch). -/
inductive Ev where
  | tick
  | signal
  | stopEv
deriving DecidableEq, Repr

/-- Terminal outcome of a run of the loop: transmitted (waitfile found,
`handleWaitFile` returned), aborted (grace period expired, nil
return), or still pending when the delivered events ran out. -/
inductive Outcome where
  | transmitted
  | aborted
  | pending
deriving DecidableEq, Repr

/-- Observable trace of one run of `GatherResults`. -/
structure GTrace where
  outcome : Outcome
  ret : Option GoErr
  resultRef : Option String
  hw : Option HWTrace
  signalBranches : Nat
  fsOps : List FsOp
deriving DecidableEq, Repr

/-- Total number of calls to the transmission primitive in a run. -/
def GTrace.doReqCalls (g : GTrace) : Nat :=
  match g.hw with
  | none => 0
  | some h => h.doRequestCalls

/-- Embedding of the `GatherResults` select loop over the list of
delivered events, in delivery order. On a tick it attempts to read the
waitfile: success hands the raw content to `handleWaitFile` and
returns its outcome; any read error is ignored and the loop continues.
The signal branch only spawns the grace-period goroutine (whose later
send appears as a `stopEv` event). A `stopEv` logs and returns nil. -/
def GatherResults (waitfile url : String) (env : Env) : List Ev → GTrace
  | [] =>
    { outcome := Outcome.pending, ret := none, resultRef := none,
      hw := none, signalBranches := 0, fsOps := [] }
  | Ev.tick :: rest =>
    match readFileFS env.fs waitfile with
    | Except.ok c =>
      let h := handleWaitFile c url env
      { outcome := Outcome.transmitted, ret := h.ret, resultRef := some c,
        hw := some h, signalBranches := 0,
        fsOps := FsOp.readFile waitfile :: h.fsOps }
    | Except.error _ =>
      let g := GatherResults waitfile url env rest
      { g with fsOps := FsOp.readFile waitfile :: g.fsOps }
  | Ev.signal :: rest =>
    let g := GatherResults waitfile url env rest
    { g with signalBranches := g.signalBranches + 1 }
  | Ev.stopEv :: _ =>
    { outcome := Outcome.aborted, ret := none, resultRef := none,
      hw := none, signalBranches := 0, fsOps := [] }

/-- Statements executed by the goroutine spawned by `sigHandler`:
receive the first OS termination signal on its private `sigc` channel,
log it. (`sendReturned`, a send on the channel `sigHandler` returns,
is the statement the body conspicuously lacks.) -/
inductive GoStmt where
  | recvOsSignal
  | logSignal
  | sendReturned
deriving DecidableEq, Repr

/-- Embedding of the body of the goroutine inside `sigHandler`: it
registers for SIGTERM, receives one signal and logs it; it contains no
send on the returned channel. -/
def sigHandlerBody : List GoStmt :=
  [GoStmt.recvOsSignal, GoStmt.logSignal]

/-- Number of values ever sent on the channel returned by `sigHandler`:
the number of `sendReturned` statements its goroutine executes. -/
def sigHandlerEmissions : Nat :=
  sigHandlerBody.countP (fun s => s == GoStmt.sendReturned)

/-- Number of `signal` events in a delivered-event list. -/
def signalCount (evs : List Ev) : Nat :=
  evs.countP (fun e => e == Ev.signal)

/-- No `stopEv` before the first `signal`: the `stop` channel is
written only by the goroutine spawned in the signal branch. -/
def noStopBeforeSignal : List Ev → Bool
  | [] => true
  | Ev.signal :: _ => true
  | Ev.stopEv :: _ => false
  | Ev.tick :: rest => noStopBeforeSignal rest

/-- An event list that a real execution can deliver to the loop: at
most `sigHandlerEmissions` values arrive on the signals channel, and
no grace-period expiry precedes a signal. -/
def Realizable (evs : List Ev) : Prop :=
  signalCount evs ≤ sigHandlerEmissions ∧ noStopBeforeSignal evs = true

/-- Whether a waitfile read attempt succeeded. -/
def isOkRead (r : Except ReadErr String) : Bool :=
  match r with
  | Except.ok _ => true
  | Except.error _ => false

/-- The content type handed to the transmission primitive, when the
primitive was called during the run. -/
def GTrace.sentContentType (g : GTrace) : Option String :=
  g.hw.map (fun h => h.factory.ctype)

/-- A path whose read succeeds can also be opened read-only. -/
theorem openFS_ok_of_readFileFS (fs : FS) (p d : String)
    (h : readFileFS fs p = Except.ok d) : openFS fs p = Except.ok () := by
  unfold readFileFS at h
  unfold openFS
  cases hl : fs.lookup p with
  | none => simp [hl] at h
  | some e => cases e <;> simp [hl] at h ⊢

/-- The loop takes its signal branch at most once per delivered signal
event. -/
theorem signalBranches_le (waitfile url : String) (env : Env) :
    ∀ evs : List Ev,
      (GatherResults waitfile url env evs).signalBranches ≤ signalCount evs := by
  intro evs
  induction evs with
  | nil => simp [GatherResults, signalCount]
  | cons ev rest ih =>
    cases ev with
    | tick =>
      cases hr : readFileFS env.fs waitfile with
      | ok c => simp [GatherResults, hr, signalCount, List.countP_cons]
      | error e =>
        simp only [GatherResults, hr, signalCount, List.countP_cons] at ih ⊢
        omega
    | signal =>
      simp only [GatherResults, signalCount, List.countP_cons] at ih ⊢
      simp
      omega
    | stopEv => simp [GatherResults, signalCount]

/-- If the waitfile is readable, the loop transmits at the first tick
delivered before any grace-period expiry, with the waitfile content as
the result reference. -/
theorem transmits_before_stop (waitfile url c : String) (env : Env)
    (hrd : readFileFS env.fs waitfile = Except.ok c) :
    ∀ (pre post : List Ev), Ev.stopEv ∉ pre →
      (GatherResults waitfile url env (pre ++ Ev.tick :: post)).outcome
          = Outcome.transmitted ∧
      (GatherResults waitfile url env (pre ++ Ev.tick :: post)).ret
          = (handleWaitFile c url env).ret ∧
      (GatherResults waitfile url env (pre ++ Ev.tick :: post)).doReqCalls = 1 := by
  intro pre
  induction pre with
  | nil =>
    intro post _
    simp [GatherResults, hrd, GTrace.doReqCalls, handleWaitFile]
  | cons ev pre ih =>
    intro post hns
    have hns2 : Ev.stopEv ∉ pre := fun hm => hns (List.mem_cons_of_mem _ hm)
    cases ev with
    | tick =>
      simp [GatherResults, hrd, GTrace.doReqCalls, handleWaitFile]
    | signal =>
      have := ih post hns2
      simpa [GatherResults, GTrace.doReqCalls] using this
    | stopEv => exact absurd (List.mem_cons_self _ _) hns

/-- Every filesystem operation performed by `handleWaitFile` is
non-mutating. -/
theorem hw_fsOps_nonmutating (resultFile url : String) (env : Env) :
    ∀ op ∈ (handleWaitFile resultFile url env).fsOps, mutatesB op = false := by
  intro op hop
  cases h : openFS env.fs resultFile <;>
    simp [handleWaitFile, h] at hop <;>
    rcases hop with rfl | rfl <;> rfl

/-- A non-mutating operation leaves the filesystem unchanged. -/
theorem applyFsOp_id_of_nonmutating (fs : FS) (op : FsOp)
    (h : mutatesB op = false) : applyFsOp fs op = fs := by
  cases op <;> simp [mutatesB] at h ⊢ <;> rfl

/-- Folding a trace of non-mutating operations leaves the filesystem
unchanged. -/
theorem foldl_applyFsOp_id (ops : List FsOp) :
    ∀ fs : FS, (∀ op ∈ ops, mutatesB op = false) →
      ops.foldl applyFsOp fs = fs := by
  induction ops with
  | nil => intro fs _; rfl
  | cons op rest ih =>
    intro fs h
    have h1 : mutatesB op = false := h op (List.mem_cons_self _ _)
    have h2 : ∀ o ∈ rest, mutatesB o = false :=
      fun o ho => h o (List.mem_cons_of_mem _ ho)
    simp [List.foldl_cons, applyFsOp_id_of_nonmutating fs op h1, ih fs h2]

/-- Every filesystem operation performed by a run of `GatherResults`
is non-mutating. -/
theorem gather_fsOps_nonmutating (waitfile url : String) (env : Env) :
    ∀ evs : List Ev, ∀ op ∈ (GatherResults waitfile url env evs).fsOps,
      mutatesB op = false := by
  intro evs
  induction evs with
  | nil => intro op hop; simp [GatherResults] at hop
  | cons ev rest ih =>
    intro op hop
    cases ev with
    | tick =>
      cases hr : readFileFS env.fs waitfile with
      | ok c =>
        simp only [GatherResults, hr] at hop
        rcases List.mem_cons.mp hop with rfl | hop2
        · rfl
        · exact hw_fsOps_nonmutating c url env op hop2
      | error e =>
        simp only [GatherResults, hr] at hop
        rcases List.mem_cons.mp hop with rfl | hop2
        · rfl
        · exact ih op hop2
    | signal =>
      simp only [GatherResults] at hop
      exact ih op hop
    | stopEv => simp [GatherResults] at hop

/-- Demonstration filesystem: a waitfile naming a readable gzip
artifact. -/
def fsDemo : FS :=
  [("/tmp/done", FileEntry.content "/tmp/results.tar.gz"),
   ("/tmp/results.tar.gz", FileEntry.content "payload")]

/-- Demonstration environment with a transmissible network. -/
def envDemo : Env := { fs := fsDemo, netOk := true }

/-- Environment with an empty filesystem: every read and open fails. -/
def envEmpty : Env := { fs := [], netOk := true }

/-- Filesystem whose waitfile content carries a trailing newline. -/
def fsNewline : FS :=
  [("/tmp/done", FileEntry.content "res.tar.gz\n"),
   ("res.tar.gz", FileEntry.content "payload")]

/-- Trimming as the specification describes it: removal of surrounding
whitespace, such as a trailing newline, from both ends. This is the
spec-side notion the claim refers to; the source applies no such
operation. -/
def trimSpec (s : String) : String :=
  String.mk
    (((s.data.dropWhile Char.isWhitespace).reverse.dropWhile
        Char.isWhitespace).reverse)

/-- C1: for every waitfile whose content is a valid path to a readable
file, `GatherResults` calls the transmission primitive `DoRequest`
exactly once, with the content type given by the file-extension
mapping table, and returns no error when `DoRequest` succeeds. -/
theorem C1_transmits_once_with_mapped_type
    (waitfile url p data : String) (env : Env) (rest : List Ev)
    (hwf : readFileFS env.fs waitfile = Except.ok p)
    (hres : readFileFS env.fs p = Except.ok data)
    (hnet : env.netOk = true) :
    (GatherResults waitfile url env (Ev.tick :: rest)).doReqCalls = 1 ∧
    (GatherResults waitfile url env (Ev.tick :: rest)).sentContentType
        = some (typeByExtension (filepathExt p)) ∧
    (GatherResults waitfile url env (Ev.tick :: rest)).ret = none := by
  have hopen := openFS_ok_of_readFileFS env.fs p data hres
  simp [GatherResults, hwf, GTrace.doReqCalls, GTrace.sentContentType,
        handleWaitFile, hopen, DoRequest, withStackOpt, hnet]

/-- Witness for C1 at a concrete environment. -/
theorem C1_witness :
    (readFileFS envDemo.fs "/tmp/done" = Except.ok "/tmp/results.tar.gz" ∧
     readFileFS envDemo.fs "/tmp/results.tar.gz" = Except.ok "payload" ∧
     envDemo.netOk = true) ∧
    ((GatherResults "/tmp/done" "http://aggregator" envDemo [Ev.tick]).doReqCalls = 1 ∧
     (GatherResults "/tmp/done" "http://aggregator" envDemo [Ev.tick]).sentContentType
        = some (typeByExtension (filepathExt "/tmp/results.tar.gz")) ∧
     (GatherResults "/tmp/done" "http://aggregator" envDemo [Ev.tick]).ret = none) :=
  ⟨⟨by decide, by decide, by decide⟩,
   C1_transmits_once_with_mapped_type "/tmp/done" "http://aggregator"
     "/tmp/results.tar.gz" "payload" envDemo [] (by decide) (by decide) (by decide)⟩

/-- C2: the event source returned by `sigHandler` is never signaled in
any execution — its goroutine contains no send on the returned channel,
so every realizable event list has no signal events and the
termination-signal branch of the `GatherResults` select loop never
fires. -/
theorem C2_signal_branch_never_fires
    (waitfile url : String) (env : Env) (evs : List Ev)
    (h : Realizable evs) :
    sigHandlerEmissions = 0 ∧ signalCount evs = 0 ∧
    (GatherResults waitfile url env evs).signalBranches = 0 := by
  have hz : sigHandlerEmissions = 0 := by decide
  have h1 := h.1
  rw [hz] at h1
  have h2 := signalBranches_le waitfile url env evs
  exact ⟨hz, by omega, by omega⟩

/-- Witness for C2 at a concrete event list. -/
theorem C2_witness :
    Realizable [Ev.tick, Ev.tick] ∧
    (sigHandlerEmissions = 0 ∧ signalCount [Ev.tick, Ev.tick] = 0 ∧
     (GatherResults "/tmp/done" "http://aggregator" envDemo
        [Ev.tick, Ev.tick]).signalBranches = 0) :=
  ⟨⟨by decide, by decide⟩,
   C2_signal_branch_never_fires "/tmp/done" "http://aggregator" envDemo
     [Ev.tick, Ev.tick] ⟨by decide, by decide⟩⟩

/-- C3: if the waitfile never becomes readable and a termination event
is received (treating the signal branch as reachable), `GatherResults`
returns a nil error upon grace-period expiry, with zero calls to the
transmission primitive: the timeout is a normal outcome, not an
error. -/
theorem C3_grace_expiry_nil_no_calls
    (waitfile url : String) (env : Env) (evs : List Ev)
    (hnever : isOkRead (readFileFS env.fs waitfile) = false)
    (hstop : Ev.stopEv ∈ evs) :
    (GatherResults waitfile url env evs).outcome = Outcome.aborted ∧
    (GatherResults waitfile url env evs).ret = none ∧
    (GatherResults waitfile url env evs).doReqCalls = 0 := by
  induction evs with
  | nil => simp at hstop
  | cons ev rest ih =>
    cases ev with
    | tick =>
      cases hr : readFileFS env.fs waitfile with
      | ok c => rw [hr] at hnever; simp [isOkRead] at hnever
      | error e =>
        have hst : Ev.stopEv ∈ rest := by
          rcases List.mem_cons.mp hstop with h | h
          · exact absurd h (by decide)
          · exact h
        have h2 := ih hst
        simpa [GatherResults, hr, GTrace.doReqCalls] using h2
    | signal =>
      have hst : Ev.stopEv ∈ rest := by
        rcases List.mem_cons.mp hstop with h | h
        · exact absurd h (by decide)
        · exact h
      have h2 := ih hst
      simpa [GatherResults, GTrace.doReqCalls] using h2
    | stopEv => simp [GatherResults, GTrace.doReqCalls]

/-- Witness for C3 at a concrete environment and event list. -/
theorem C3_witness :
    (isOkRead (readFileFS envEmpty.fs "/tmp/done") = false ∧
     Ev.stopEv ∈ [Ev.tick, Ev.signal, Ev.tick, Ev.stopEv]) ∧
    ((GatherResults "/tmp/done" "http://aggregator" envEmpty
        [Ev.tick, Ev.signal, Ev.tick, Ev.stopEv]).outcome = Outcome.aborted ∧
     (GatherResults "/tmp/done" "http://aggregator" envEmpty
        [Ev.tick, Ev.signal, Ev.tick, Ev.stopEv]).ret = none ∧
     (GatherResults "/tmp/done" "http://aggregator" envEmpty
        [Ev.tick, Ev.signal, Ev.tick, Ev.stopEv]).doReqCalls = 0) :=
  ⟨⟨by decide, by decide⟩,
   C3_grace_expiry_nil_no_calls "/tmp/done" "http://aggregator" envEmpty
     [Ev.tick, Ev.signal, Ev.tick, Ev.stopEv] (by decide) (by decide)⟩

/-- C4 counterexample: with a waitfile whose content is
"res.tar.gz\n", the Result Reference handed to transmission is the
untrimmed "res.tar.gz\n", not the trimmed "res.tar.gz", refuting the
claim that surrounding whitespace is removed. -/
theorem C4_counterexample :
    (GatherResults "/tmp/done" "http://aggregator"
        { fs := fsNewline, netOk := true } [Ev.tick]).resultRef
      = some "res.tar.gz\n" ∧
    trimSpec "res.tar.gz\n" = "res.tar.gz" ∧
    ¬ (GatherResults "/tmp/done" "http://aggregator"
        { fs := fsNewline, netOk := true } [Ev.tick]).resultRef
      = some (trimSpec "res.tar.gz\n") :=
  ⟨by decide, by decide, by decide⟩

/-- C4 amended: when a waitfile read succeeds, the Result Reference
used for transmission is the literal, untrimmed text content of the
waitfile; no whitespace trimming occurs. -/
theorem C4_untrimmed_result_reference
    (waitfile url c : String) (env : Env) (rest : List Ev)
    (h : readFileFS env.fs waitfile = Except.ok c) :
    (GatherResults waitfile url env (Ev.tick :: rest)).resultRef = some c ∧
    (GatherResults waitfile url env (Ev.tick :: rest)).hw
        = some (handleWaitFile c url env) := by
  simp [GatherResults, h]

/-- Witness for the amended C4 at a concrete environment. -/
theorem C4_witness :
    readFileFS fsNewline "/tmp/done" = Except.ok "res.tar.gz\n" ∧
    ((GatherResults "/tmp/done" "http://aggregator"
        { fs := fsNewline, netOk := true } [Ev.tick]).resultRef
          = some "res.tar.gz\n" ∧
     (GatherResults "/tmp/done" "http://aggregator"
        { fs := fsNewline, netOk := true } [Ev.tick]).hw
          = some (handleWaitFile "res.tar.gz\n" "http://aggregator"
              { fs := fsNewline, netOk := true })) :=
  ⟨by decide,
   C4_untrimmed_result_reference "/tmp/done" "http://aggregator" "res.tar.gz\n"
     { fs := fsNewline, netOk := true } [] (by decide)⟩

/-- C5: on every exit path of the transmission attempt in
`handleWaitFile` (success, transmission failure, or open failure), the
opened artifact handle is closed exactly once before the function
returns: the number of closes equals the number of successful opens,
which is at most one. -/
theorem C5_handle_closed_exactly_once (resultFile url : String) (env : Env) :
    (handleWaitFile resultFile url env).closed
        = (handleWaitFile resultFile url env).opened ∧
    (handleWaitFile resultFile url env).opened ≤ 1 ∧
    (handleWaitFile resultFile url env).fsOps.countP
        (fun op => op == FsOp.closeHandle resultFile)
      = (handleWaitFile resultFile url env).opened := by
  cases h : openFS env.fs resultFile <;>
    simp [handleWaitFile, h, List.countP_cons]

/-- C6: every waitfile read error (not-found or any other kind) leaves
the loop's observable behavior identical to the run without that tick:
the error is not surfaced and polling continues. -/
theorem C6_read_error_keeps_polling
    (waitfile url : String) (env : Env) (rest : List Ev) (e : ReadErr)
    (h : readFileFS env.fs waitfile = Except.error e) :
    (GatherResults waitfile url env (Ev.tick :: rest)).outcome
        = (GatherResults waitfile url env rest).outcome ∧
    (GatherResults waitfile url env (Ev.tick :: rest)).ret
        = (GatherResults waitfile url env rest).ret ∧
    (GatherResults waitfile url env (Ev.tick :: rest)).resultRef
        = (GatherResults waitfile url env rest).resultRef ∧
    (GatherResults waitfile url env (Ev.tick :: rest)).hw
        = (GatherResults waitfile url env rest).hw ∧
    (GatherResults waitfile url env (Ev.tick :: rest)).signalBranches
        = (GatherResults waitfile url env rest).signalBranches := by
  simp [GatherResults, h]

/-- Witness for C6: a not-found read error at a concrete input. -/
theorem C6_witness :
    readFileFS envEmpty.fs "/tmp/done" = Except.error ReadErr.notFound ∧
    ((GatherResults "/tmp/done" "http://aggregator" envEmpty [Ev.tick]).outcome
        = (GatherResults "/tmp/done" "http://aggregator" envEmpty []).outcome ∧
     (GatherResults "/tmp/done" "http://aggregator" envEmpty [Ev.tick]).ret
        = (GatherResults "/tmp/done" "http://aggregator" envEmpty []).ret ∧
     (GatherResults "/tmp/done" "http://aggregator" envEmpty [Ev.tick]).resultRef
        = (GatherResults "/tmp/done" "http://aggregator" envEmpty []).resultRef ∧
     (GatherResults "/tmp/done" "http://aggregator" envEmpty [Ev.tick]).hw
        = (GatherResults "/tmp/done" "http://aggregator" envEmpty []).hw ∧
     (GatherResults "/tmp/done" "http://aggregator" envEmpty [Ev.tick]).signalBranches
        = (GatherResults "/tmp/done" "http://aggregator" envEmpty []).signalBranches) :=
  ⟨by decide,
   C6_read_error_keeps_polling "/tmp/done" "http://aggregator" envEmpty []
     ReadErr.notFound (by decide)⟩

/-- C7: if a successful waitfile read occurs after a termination event
but before the grace-period expiry event, `GatherResults` still
transmits and returns the transmission's outcome, never taking the
aborted (timeout) path. -/
theorem C7_late_result_preempts_abort
    (waitfile url c : String) (env : Env) (pre post : List Ev)
    (hrd : readFileFS env.fs waitfile = Except.ok c)
    (hsig : Ev.signal ∈ pre)
    (hnostop : Ev.stopEv ∉ pre) :
    (GatherResults waitfile url env (pre ++ Ev.tick :: post)).outcome
        = Outcome.transmitted ∧
    (GatherResults waitfile url env (pre ++ Ev.tick :: post)).outcome
        ≠ Outcome.aborted ∧
    (GatherResults waitfile url env (pre ++ Ev.tick :: post)).ret
        = (handleWaitFile c url env).ret ∧
    (GatherResults waitfile url env (pre ++ Ev.tick :: post)).doReqCalls = 1 := by
  have h := transmits_before_stop waitfile url c env hrd pre post hnostop
  refine ⟨h.1, ?_, h.2.1, h.2.2⟩
  rw [h.1]
  decide

/-- Witness for C7: a signal, then a successful tick, then the expiry
that arrives too late. -/
theorem C7_witness :
    (readFileFS envDemo.fs "/tmp/done" = Except.ok "/tmp/results.tar.gz" ∧
     Ev.signal ∈ [Ev.signal] ∧ Ev.stopEv ∉ [Ev.signal]) ∧
    ((GatherResults "/tmp/done" "http://aggregator" envDemo
        ([Ev.signal] ++ Ev.tick :: [Ev.stopEv])).outcome = Outcome.transmitted ∧
     (GatherResults "/tmp/done" "http://aggregator" envDemo
        ([Ev.signal] ++ Ev.tick :: [Ev.stopEv])).outcome ≠ Outcome.aborted ∧
     (GatherResults "/tmp/done" "http://aggregator" envDemo
        ([Ev.signal] ++ Ev.tick :: [Ev.stopEv])).ret
        = (handleWaitFile "/tmp/results.tar.gz" "http://aggregator" envDemo).ret ∧
     (GatherResults "/tmp/done" "http://aggregator" envDemo
        ([Ev.signal] ++ Ev.tick :: [Ev.stopEv])).doReqCalls = 1) :=
  ⟨⟨by decide, by decide, by decide⟩,
   C7_late_result_preempts_abort "/tmp/done" "http://aggregator"
     "/tmp/results.tar.gz" envDemo [Ev.signal] [Ev.stopEv]
     (by decide) (by decide) (by decide)⟩

/-- C8: content-type resolution maps a path ending in ".gz" to
"application/gzip"; an unrecognized extension produces no error — the
content type is left empty and the transmission primitive is still
called. -/
theorem C8_content_type_mapping
    (p q url : String) (env : Env)
    (hgz : filepathExt p = ".gz")
    (hq1 : mimeTable.lookup (filepathExt q) = none)
    (hq2 : mimeTable.lookup (strToLower (filepathExt q)) = none) :
    typeByExtension (filepathExt p) = "application/gzip" ∧
    (handleWaitFile q url env).contentType = "" ∧
    (handleWaitFile q url env).doRequestCalls = 1 := by
  refine ⟨?_, ?_, ?_⟩
  · rw [hgz]
    decide
  · cases h : openFS env.fs q <;>
      simp [handleWaitFile, typeByExtension, hq1, hq2, h]
  · cases h : openFS env.fs q <;> simp [handleWaitFile, h]

/-- Witness for C8 at concrete paths. -/
theorem C8_witness :
    (filepathExt "/tmp/results.tar.gz" = ".gz" ∧
     mimeTable.lookup (filepathExt "weird.xyz") = none ∧
     mimeTable.lookup (strToLower (filepathExt "weird.xyz")) = none) ∧
    (typeByExtension (filepathExt "/tmp/results.tar.gz") = "application/gzip" ∧
     (handleWaitFile "weird.xyz" "http://aggregator" envEmpty).contentType = "" ∧
     (handleWaitFile "weird.xyz" "http://aggregator" envEmpty).doRequestCalls = 1) :=
  ⟨⟨by decide, by decide, by decide⟩,
   C8_content_type_mapping "/tmp/results.tar.gz" "weird.xyz" "http://aggregator"
     envEmpty (by decide) (by decide) (by decide)⟩

/-- C9: the watcher never creates, writes or deletes any file: every
filesystem operation in any run of `GatherResults` (including those of
`handleWaitFile`) is non-mutating, and replaying the run's operation
trace leaves the filesystem unchanged. -/
theorem C9_watcher_readonly (waitfile url : String) (env : Env) (evs : List Ev) :
    (GatherResults waitfile url env evs).fsOps.countP mutatesB = 0 ∧
    (GatherResults waitfile url env evs).fsOps.foldl applyFsOp env.fs = env.fs := by
  have hall := gather_fsOps_nonmutating waitfile url env evs
  constructor
  · rw [List.countP_eq_zero]
    intro a ha
    simp [hall a ha]
  · exact foldl_applyFsOp_id _ env.fs hall

/-- C10: `handleWaitFile` invokes `DoRequest` unconditionally, exactly
once, even when the artifact cannot be opened: the open failure does
not short-circuit the call but is delivered to `DoRequest` through the
stream factory's error result, wrapped with a stack trace. -/
theorem C10_dorequest_unconditional
    (resultFile url : String) (env : Env) (k : ReadErr)
    (hopen : openFS env.fs resultFile = Except.error k) :
    (handleWaitFile resultFile url env).doRequestCalls = 1 ∧
    (handleWaitFile resultFile url env).factory.err
        = some (GoErr.withStack (GoErr.pathErr "open" resultFile k)) ∧
    (handleWaitFile resultFile url env).ret
        = some (GoErr.withStack (GoErr.pathErr "open" resultFile k)) := by
  simp [handleWaitFile, hopen, DoRequest, withStackOpt]

/-- Witness for C10: a missing artifact at a concrete input. -/
theorem C10_witness :
    openFS envEmpty.fs "missing.tar.gz" = Except.error ReadErr.notFound ∧
    ((handleWaitFile "missing.tar.gz" "http://aggregator" envEmpty).doRequestCalls = 1 ∧
     (handleWaitFile "missing.tar.gz" "http://aggregator" envEmpty).factory.err
        = some (GoErr.withStack (GoErr.pathErr "open" "missing.tar.gz" ReadErr.notFound)) ∧
     (handleWaitFile "missing.tar.gz" "http://aggregator" envEmpty).ret
        = some (GoErr.withStack (GoErr.pathErr "open" "missing.tar.gz" ReadErr.notFound))) :=
  ⟨by decide,
   C10_dorequest_unconditional "missing.tar.gz" "http://aggregator" envEmpty
     ReadErr.notFound (by decide)⟩

end Worker
